import Mathlib

/-!
Verification development for the JavaScript-interface bridge of
`react-native-webview` (files `src/JavaScriptInterface.ts` and
`src/WebView.ios.tsx`).

The TypeScript code is shallowly embedded: JS `Map`s become association
lists with `Map.set` replace-in-place semantics, `async`/`await` and
`throw`/`catch` collapse to `Except`, and the generated bootstrap script's
behaviour (the template inside `generateInjectionScript`) is modelled by
explicit state-passing functions over an embedded-environment state.
-/

/-- Serializable JavaScript values carried in call arguments and results.
The bridge treats them opaquely, so a small closed universe suffices. -/
inductive Value : Type where
  | null : Value
  | bool (b : Bool) : Value
  | num (n : Int) : Value
  | str (s : String) : Value
deriving DecidableEq

/-- A value thrown by a handler. The dispatcher only observes whether it is
an `Error` instance (in which case it reads `.message`) or not (in which
case it applies `String(...)`); we record exactly that observable: the
message of an `Error`, or the string form of a non-`Error` thrown value. -/
inductive Failure : Type where
  | errorInstance (message : String) : Failure
  | nonError (stringForm : String) : Failure
deriving DecidableEq

/-- `error instanceof Error ? error.message : String(error)`
(JavaScriptInterface.ts line 135). -/
def errorMessageOf : Failure → String
  | Failure.errorInstance message => message
  | Failure.nonError stringForm => stringForm

/-- A handler `(...args) => Promise<any> | any`; awaiting collapses the
synchronous and asynchronous cases, so the outcome is a value or a failure. -/
def Handler : Type := List Value → Except Failure Value

/-- `JavaScriptInterfaceCall` (the `type` field is the constant
`'JS_INTERFACE_CALL'` and is carried separately where relevant). -/
structure Call : Type where
  interfaceName : String
  methodName : String
  args : List Value
  callId : String
deriving DecidableEq

/-- `JavaScriptInterfaceResponse`: `type`, `callId`, `success`, and the
optional `result` / `error` fields (`none` models an absent field). -/
structure Response : Type where
  type : String
  callId : String
  success : Bool
  result : Option Value
  error : Option String
deriving DecidableEq

/-- Association list standing for a JS `Map` with string keys (or a plain
object used as a table): insertion order preserved, keys unique as long as
every write goes through `smapSet`. -/
abbrev SMap (β : Type) : Type := List (String × β)

/-- `Map.get` / property read: first (and, with unique keys, only) match. -/
def smapGet {β : Type} : SMap β → String → Option β
  | [], _ => none
  | (k', v) :: rest, k => if k' == k then some v else smapGet rest k

/-- `Map.set` / property write: replace the value in place when the key is
present, append a fresh entry otherwise. -/
def smapSet {β : Type} : SMap β → String → β → SMap β
  | [], k, v => [(k, v)]
  | (k', v') :: rest, k, v =>
      if k' == k then (k', v) :: rest else (k', v') :: smapSet rest k v

/-- `delete table[k]`: remove the entry (entries) stored under `k`. -/
def smapRemove {β : Type} (m : SMap β) (k : String) : SMap β :=
  m.filter (fun p => p.1 != k)

/-- `JavaScriptInterfaceMethod`: a method name plus its handler. -/
structure MethodSpec : Type where
  name : String
  handler : Handler

/-- `JavaScriptInterfaceObject`: an interface name plus its methods. -/
structure InterfaceSpec : Type where
  name : String
  methods : List MethodSpec

/-- `JavaScriptInterfaceConfig`: interfaces plus the optional
`enableDebugLogging` flag (`none` models the field being absent). -/
structure Config : Type where
  interfaces : List InterfaceSpec
  enableDebugLogging : Option Bool

/-- The state of a `JavaScriptInterfaceManager`: the nested
interface-name → method-name → handler map and the debug flag.
Debug logging only writes to the console, so it has no further effect in
the model. -/
structure Manager : Type where
  interfaces : SMap (SMap Handler)
  enableDebugLogging : Bool

/-- The inner loop of `configure`: build a method map by `Map.set`-ing each
method in order (lines 91-95); a later method with the same name wins. -/
def buildMethodMap (methods : List MethodSpec) : SMap Handler :=
  methods.foldl (fun methodMap method => smapSet methodMap method.name method.handler) []

/-- `configure` (lines 86-99): set the debug flag from
`config.enableDebugLogging || false`, clear the registry, then install each
interface object in order; a later interface with the same name wins. -/
def Manager.configure (_mgr : Manager) (config : Config) : Manager :=
  { enableDebugLogging := config.enableDebugLogging.getD false
    interfaces :=
      config.interfaces.foldl
        (fun interfaces interfaceObj =>
          smapSet interfaces interfaceObj.name (buildMethodMap interfaceObj.methods))
        [] }

/-- `new JavaScriptInterfaceManager(config?)` (lines 77-81). -/
def Manager.create (config : Option Config) : Manager :=
  let empty : Manager := { interfaces := [], enableDebugLogging := false }
  match config with
  | some c => empty.configure c
  | none => empty

/-- `handleCall` (lines 104-148) together with the list of handler
invocations it performs (each recorded as interface name, method name and
the argument list, in order). The `throw`/`catch` pair of the source is
collapsed: each `throw new Error(msg)` reaches the `catch` whose
`error instanceof Error` branch yields exactly `msg`, and a handler failure
yields `errorMessageOf` of the thrown value. -/
def handleCallWithTrace (mgr : Manager) (call : Call) :
    Response × List (String × String × List Value) :=
  match smapGet mgr.interfaces call.interfaceName with
  | none =>
      ({ type := "JS_INTERFACE_RESPONSE", callId := call.callId, success := false,
         result := none,
         error := some ("Interface \x27" ++ call.interfaceName ++ "\x27 not found") }, [])
  | some interfaceMap =>
      match smapGet interfaceMap call.methodName with
      | none =>
          ({ type := "JS_INTERFACE_RESPONSE", callId := call.callId, success := false,
             result := none,
             error := some ("Method \x27" ++ call.methodName ++ "\x27 not found on interface \x27"
               ++ call.interfaceName ++ "\x27") }, [])
      | some handler =>
          match handler call.args with
          | Except.ok result =>
              ({ type := "JS_INTERFACE_RESPONSE", callId := call.callId, success := true,
                 result := some result, error := none },
               [(call.interfaceName, call.methodName, call.args)])
          | Except.error e =>
              ({ type := "JS_INTERFACE_RESPONSE", callId := call.callId, success := false,
                 result := none, error := some (errorMessageOf e) },
               [(call.interfaceName, call.methodName, call.args)])

/-- `handleCall`'s response.  Totality of this function is the model of
"the dispatcher itself never raises". -/
def handleCall (mgr : Manager) (call : Call) : Response :=
  (handleCallWithTrace mgr call).1

/-- The handler invocations `handleCall` performs. -/
def handleCallInvocations (mgr : Manager) (call : Call) :
    List (String × String × List Value) :=
  (handleCallWithTrace mgr call).2

/-- `hasInterface` (lines 230-232). -/
def Manager.hasInterface (mgr : Manager) (name : String) : Bool :=
  (smapGet mgr.interfaces name).isSome

/-- `hasMethod` (lines 237-240). -/
def Manager.hasMethod (mgr : Manager) (interfaceName methodName : String) : Bool :=
  match smapGet mgr.interfaces interfaceName with
  | some interfaceMap => (smapGet interfaceMap methodName).isSome
  | none => false

/-- `getInterfaceNames` (lines 223-225). -/
def Manager.getInterfaceNames (mgr : Manager) : List String :=
  mgr.interfaces.map Prod.fst

/-- Reading back a written key yields the written value; other keys are
unaffected. -/
theorem smapGet_smapSet {β : Type} (m : SMap β) (k k' : String) (v : β) :
    smapGet (smapSet m k v) k' = if k = k' then some v else smapGet m k' := by
  induction m with
  | nil => by_cases h : k = k' <;> simp [smapSet, smapGet, h]
  | cons p rest ih =>
      obtain ⟨a, b⟩ := p
      by_cases hak : a = k
      · by_cases h : k = k' <;> simp [smapSet, smapGet, hak, h]
      · by_cases h : a = k' <;> by_cases h2 : k = k' <;>
          simp_all [smapSet, smapGet, hak, h]
  
/-- `smapSet` keeps the key list unchanged when the key is present and
appends the key otherwise. -/
theorem keys_smapSet {β : Type} (m : SMap β) (k : String) (v : β) :
    (smapSet m k v).map Prod.fst =
      if k ∈ m.map Prod.fst then m.map Prod.fst else m.map Prod.fst ++ [k] := by
  induction m with
  | nil => simp [smapSet]
  | cons p rest ih =>
      obtain ⟨a, b⟩ := p
      by_cases hak : a = k
      · simp [smapSet, hak]
      · by_cases hmem : k ∈ rest.map Prod.fst <;>
          simp_all [smapSet, hak, Ne.symm hak]

/-- `smapSet` preserves uniqueness of keys. -/
theorem nodup_keys_smapSet {β : Type} {m : SMap β} {k : String} {v : β}
    (h : (m.map Prod.fst).Nodup) : ((smapSet m k v).map Prod.fst).Nodup := by
  rw [keys_smapSet]
  split
  · exact h
  · next hmem => simp [List.nodup_append, h, hmem]

/-- After `delete table[k]`, key `k` is absent. -/
theorem smapGet_smapRemove_self {β : Type} (m : SMap β) (k : String) :
    smapGet (smapRemove m k) k = none := by
  induction m with
  | nil => rfl
  | cons p rest ih =>
      obtain ⟨a, b⟩ := p
      simp only [smapRemove, List.filter] at ih ⊢
      by_cases hak : a = k
      · subst hak
        rw [bne_self_eq_false]
        exact ih
      · have h1 : (a != k) = true := by simp [bne, hak]
        have h2 : (a == k) = false := by simp [hak]
        rw [h1]
        simp [smapGet, h2, ih]

/-- The last element of a list whose key equals `k` — the entry that wins
when a configuration lists the same name more than once. -/
def lookupLast {α : Type} (key : α → String) (k : String) : List α → Option α
  | [] => none
  | x :: rest =>
      match lookupLast key k rest with
      | some y => some y
      | none => if key x == k then some x else none

/-- `lookupLast` only returns elements whose key is the searched one. -/
theorem lookupLast_key {α : Type} (key : α → String) (k : String) (l : List α)
    (y : α) (h : lookupLast key k l = some y) : key y = k := by
  induction l with
  | nil => simp [lookupLast] at h
  | cons x rest ih =>
      simp only [lookupLast] at h
      cases hr : lookupLast key k rest with
      | some z => rw [hr] at h; exact ih (hr.trans (by injection h with h; rw [h]))
      | none =>
          rw [hr] at h
          by_cases hk : key x = k
          · simp [hk] at h; rw [← h, hk]
          · simp [hk] at h

/-- Folding `smapSet` over a list: the last entry with the searched key
wins; if none has it, the initial map decides. -/
theorem smapGet_foldl_set {α β : Type} (key : α → String) (val : α → β)
    (l : List α) (init : SMap β) (k : String) :
    smapGet (l.foldl (fun m x => smapSet m (key x) (val x)) init) k =
      (match lookupLast key k l with
       | some x => some (val x)
       | none => smapGet init k) := by
  induction l generalizing init with
  | nil => simp [lookupLast]
  | cons x rest ih =>
      simp only [List.foldl_cons, lookupLast]
      rw [ih]
      cases h : lookupLast key k rest with
      | some y => simp
      | none =>
          simp only [smapGet_smapSet]
          by_cases hk : key x = k <;> simp [hk]

/-- Special case of `smapGet_foldl_set` starting from the empty map. -/
theorem smapGet_foldl_set_nil {α β : Type} (key : α → String) (val : α → β)
    (l : List α) (k : String) :
    smapGet (l.foldl (fun m x => smapSet m (key x) (val x)) []) k =
      (lookupLast key k l).map val := by
  rw [smapGet_foldl_set]
  cases h : lookupLast key k l <;> simp [smapGet]

/-- Folding `smapSet` preserves uniqueness of keys. -/
theorem nodup_keys_foldl_set {α β : Type} (key : α → String) (val : α → β)
    (l : List α) (init : SMap β) (h : (init.map Prod.fst).Nodup) :
    ((l.foldl (fun m x => smapSet m (key x) (val x)) init).map Prod.fst).Nodup := by
  induction l generalizing init with
  | nil => exact h
  | cons x rest ih => exact ih _ (nodup_keys_smapSet h)

/-- The stub text generated for one method (the template at
JavaScriptInterface.ts lines 164-188, with the two interpolations spliced
in). -/
def methodStubSource (interfaceName methodName : String) : String :=
  "\n        " ++ methodName ++ ": function(...args) \x7b\n          return new Promise((resolve, reject) => \x7b\n            const callId = \x27call_\x27 + Date.now() + \x27_\x27 + Math.random().toString(36).substr(2, 9);\n            \n            // Store the promise callbacks\n            window.__jsInterfaceCallbacks = window.__jsInterfaceCallbacks || \x7b\x7d;\n            window.__jsInterfaceCallbacks[callId] = \x7b resolve, reject \x7d;\n            \n            // Send the call to React Native\n            const message = \x7b\n              type: \x27JS_INTERFACE_CALL\x27,\n              interfaceName: \x27" ++ interfaceName ++ "\x27,\n              methodName: \x27" ++ methodName ++ "\x27,\n              args: args,\n              callId: callId\n            \x7d;\n            \n            if (window.ReactNativeWebView && window.ReactNativeWebView.postMessage) \x7b\n              window.ReactNativeWebView.postMessage(JSON.stringify(message));\n            \x7d else \x7b\n              reject(new Error(\x27ReactNativeWebView not available\x27));\n            \x7d\n          \x7d);\n        \x7d"

/-- The fixed text of the generated bootstrap before the interface
definitions (lines 195-214): callback-table initialization plus the global
response handler. -/
def scriptPrologue : String :=
  "\n      (function() \x7b\n        // Initialize callback storage\n        window.__jsInterfaceCallbacks = window.__jsInterfaceCallbacks || \x7b\x7d;\n        \n        // Handle responses from React Native\n        window.__handleJSInterfaceResponse = function(response) \x7b\n          const callback = window.__jsInterfaceCallbacks[response.callId];\n          if (callback) \x7b\n            delete window.__jsInterfaceCallbacks[response.callId];\n            \n            if (response.success) \x7b\n              callback.resolve(response.result);\n            \x7d else \x7b\n              callback.reject(new Error(response.error || \x27Unknown error\x27));\n            \x7d\n          \x7d\n        \x7d;\n        \n        // Define interface objects\n        "

/-- The fixed text closing the generated bootstrap (lines 216-217). -/
def scriptEpilogue : String := "\n      \x7d)();\n    "

/-- `generateInjectionScript` (lines 153-218): empty when no interfaces are
configured, otherwise the bootstrap text assembled from the registry. The
source reads each method map back with `this.interfaces.get(name)!`; the
`getD []` default mirrors that lookup (it always succeeds, since the names
are the map's own keys). -/
def generateInjectionScript (mgr : Manager) : String :=
  let interfaceNames := mgr.interfaces.map Prod.fst
  if interfaceNames.length = 0 then ""
  else
    let interfaceDefinitions := String.intercalate "\n" (interfaceNames.map
      (fun interfaceName =>
        let methodMap := (smapGet mgr.interfaces interfaceName).getD []
        let methodNames := methodMap.map Prod.fst
        let methodDefinitions :=
          String.intercalate "," (methodNames.map (methodStubSource interfaceName))
        "\n        window." ++ interfaceName ++ " = \x7b" ++ methodDefinitions
          ++ "\n        \x7d;"))
    scriptPrologue ++ interfaceDefinitions ++ scriptEpilogue

/-- A pending-call-table entry `{ resolve, reject }`: the continuations of
the promise created for one stub call, identified by the callId the stub
generated when it registered them. -/
structure PendingEntry : Type where
  promiseId : String
deriving DecidableEq

/-- An observable promise settlement performed by the generated script. -/
inductive SettleEvent : Type where
  | fulfilled (promiseId : String) (value : Option Value) : SettleEvent
  | rejected (promiseId : String) (message : String) : SettleEvent
deriving DecidableEq

/-- State of the embedded script environment: the window-level interface
objects (each property holding the stub for one (interface, method) pair),
the pending-call table `window.__jsInterfaceCallbacks` (the table being
absent is identified with it being empty, which `|| \x7b\x7d` makes
harmless), availability of `window.ReactNativeWebView.postMessage`, and
the envelopes posted outward so far. -/
structure EnvState : Type where
  globals : SMap (SMap (String × String))
  callbacks : SMap PendingEntry
  postMessageAvailable : Bool
  sent : List Call

/-- The window object the bootstrap assigns for one interface: one property
per configured method name, each holding the stub for that
(interface, method) pair. -/
def interfaceObjectOf (interfaceName : String) (methodMap : SMap Handler) :
    SMap (String × String) :=
  methodMap.map (fun p => (p.1, (interfaceName, p.1)))

/-- Modelled execution of the generated bootstrap (the template of
`generateInjectionScript`): the callback-table initialization
`window.__jsInterfaceCallbacks || \x7b\x7d` preserves existing entries (identity
in this model), and `window.NAME = \x7b...\x7d` is executed for each interface
name in registry order, each assignment replacing any previous global of
that name wholesale. -/
def execBootstrap (mgr : Manager) (env : EnvState) : EnvState :=
  let newGlobals :=
    (mgr.interfaces.map Prod.fst).foldl
      (fun globals interfaceName =>
        smapSet globals interfaceName
          (interfaceObjectOf interfaceName
            ((smapGet mgr.interfaces interfaceName).getD [])))
      env.globals
  { env with globals := newGlobals }

/-- One invocation of a generated stub (the body of `methodStubSource`):
`callId` stands for the freshly generated
`'call_' + Date.now() + '_' + random` identifier. The stub stores the
`\x7b resolve, reject \x7d` entry first, then checks the transport: if
`postMessage` is available it sends the serialized envelope (the promise
stays pending), otherwise it rejects immediately — without removing the
entry it just stored. -/
def stubCall (interfaceName methodName : String) (args : List Value)
    (callId : String) (env : EnvState) : EnvState × List SettleEvent :=
  let env1 : EnvState :=
    { env with callbacks := smapSet env.callbacks callId { promiseId := callId } }
  if env1.postMessageAvailable then
    ({ env1 with sent := env1.sent ++
        [{ interfaceName := interfaceName, methodName := methodName,
           args := args, callId := callId }] }, [])
  else
    (env1, [SettleEvent.rejected callId "ReactNativeWebView not available"])

/-- JS `x || d` for a string-or-absent `x`: the empty string is falsy, so
both an absent and an empty `x` yield the fallback `d`. -/
def jsOrElse (x : Option String) (d : String) : String :=
  match x with
  | some s => if s == "" then d else s
  | none => d

/-- The property names every plain object (such as the
`window.__jsInterfaceCallbacks = \x7b\x7d` table) inherits from
`Object.prototype`; reading any of them on a table with no own entry of
that name yields a truthy function or object, not `undefined`. -/
def objectPrototypeKeys : List String :=
  ["constructor", "hasOwnProperty", "isPrototypeOf", "propertyIsEnumerable",
   "toLocaleString", "toString", "valueOf", "__proto__",
   "__defineGetter__", "__defineSetter__", "__lookupGetter__", "__lookupSetter__"]

/-- Outcome of the property read `window.__jsInterfaceCallbacks[k]` on the
plain-object table: an own pending entry; a truthy value inherited from
`Object.prototype` (which is not a pending entry); or `undefined`. -/
inductive PropRead : Type where
  | own (entry : PendingEntry) : PropRead
  | inherited : PropRead
  | absent : PropRead
deriving DecidableEq

/-- The plain-object read `window.__jsInterfaceCallbacks[k]`: an own entry
shadows the prototype; with no own entry the prototype chain is consulted,
so the `Object.prototype` member names read back truthy inherited values
and every other name reads `undefined`. -/
def tableRead (table : SMap PendingEntry) (k : String) : PropRead :=
  match smapGet table k with
  | some entry => PropRead.own entry
  | none =>
      if objectPrototypeKeys.contains k then PropRead.inherited else PropRead.absent

/-- How one run of the generated response handler terminates: normally,
with the promise settlements it performed, or by throwing a `TypeError`
(when `callback` is a truthy inherited value, `callback.resolve` /
`callback.reject` is `undefined` and calling it throws). -/
inductive RunOutcome : Type where
  | normal (events : List SettleEvent) : RunOutcome
  | typeError : RunOutcome
deriving DecidableEq

/-- The settlements a run performed (a run that threw settled nothing). -/
def settledEvents : RunOutcome → List SettleEvent
  | RunOutcome.normal events => events
  | RunOutcome.typeError => []

/-- `window.__handleJSInterfaceResponse` from the generated bootstrap
(lines 201-212): `const callback = window.__jsInterfaceCallbacks[response.callId]`
is a plain-object read, so it can also hit `Object.prototype` members. If
`callback` is an own pending entry, it is deleted and settled —
`resolve(response.result)` on success, otherwise
`reject(new Error(response.error || 'Unknown error'))`. If `callback` is a
truthy inherited value, `if (callback)` passes, the `delete` removes no own
entry, and the `callback.resolve(...)` / `callback.reject(...)` call throws
a `TypeError`, settling nothing and leaving the table unchanged. If the
read yields `undefined`, nothing happens. -/
def handleJSInterfaceResponse (response : Response) (env : EnvState) :
    EnvState × RunOutcome :=
  match tableRead env.callbacks response.callId with
  | PropRead.own callback =>
      let env1 : EnvState :=
        { env with callbacks := smapRemove env.callbacks response.callId }
      if response.success then
        (env1, RunOutcome.normal [SettleEvent.fulfilled callback.promiseId response.result])
      else
        (env1, RunOutcome.normal [SettleEvent.rejected callback.promiseId
          (jsOrElse response.error "Unknown error")])
  | PropRead.inherited => (env, RunOutcome.typeError)
  | PropRead.absent => (env, RunOutcome.normal [])

/-- Parsed JSON values, for classifying inbound messages. -/
inductive JsonVal : Type where
  | null : JsonVal
  | bool (b : Bool) : JsonVal
  | num (n : Int) : JsonVal
  | str (s : String) : JsonVal
  | arr (elems : List JsonVal) : JsonVal
  | obj (fields : List (String × JsonVal)) : JsonVal

/-- The test `data.type === 'JS_INTERFACE_CALL'`: only an object whose
`type` field is that exact string passes. Reading `.type` from a
non-object yields `undefined` (or throws, for `null` — the access sits
inside the `try`, so a throw falls through to the generic handler exactly
like a failed test). -/
def isInterfaceCall : JsonVal → Bool
  | JsonVal.obj fields =>
      match smapGet fields "type" with
      | some (JsonVal.str s) => s == "JS_INTERFACE_CALL"
      | _ => false
  | _ => false

/-- Where an inbound message ends up. -/
inductive MessageRoute : Type where
  | toDispatcher : MessageRoute
  | toGeneric (event : String) : MessageRoute
deriving DecidableEq

/-- The routing decision of `enhancedOnMessage` (WebView.ios.tsx lines
129-160). `raw` is the event payload, `parsed` the outcome of
`JSON.parse(raw)` (`none` = the parse threw), `managerConfigured` whether
`jsInterfaceManager.current` is non-null. A parse failure, a value failing
the envelope-shape test, or an unconfigured manager all fall through to
the host's original `onMessage` handler with the event unchanged; a
passing envelope is handed to `handleCall` and the generic handler is not
invoked. Totality of this function models "this classification path never
raises". -/
def classifyInbound (raw : String) (parsed : Option JsonVal)
    (managerConfigured : Bool) : MessageRoute :=
  match parsed with
  | some data =>
      if isInterfaceCall data && managerConfigured then MessageRoute.toDispatcher
      else MessageRoute.toGeneric raw
  | none => MessageRoute.toGeneric raw

/-- Fixture: a handler that resolves with a fixed token. -/
def getTokenHandler : Handler := fun _ => Except.ok (Value.str "secure-token-12345")

/-- Fixture: a handler that throws `new Error('kaboom')`. -/
def boomHandler : Handler := fun _ => Except.error (Failure.errorInstance "kaboom")

/-- Fixture: a configuration with one interface and two methods. -/
def cfgW : Config :=
  { interfaces := [
      { name := "Android",
        methods := [
          { name := "getToken", handler := getTokenHandler },
          { name := "boom", handler := boomHandler } ] } ],
    enableDebugLogging := some true }

/-- Fixture: the manager built from `cfgW`. -/
def mgrW : Manager := Manager.create (some cfgW)

/-- C1: for every call envelope whose `interfaceName` is registered and
whose `methodName` is registered on that interface, `handleCall` invokes
the registered handler with the envelope's argument list in order, awaits
it, and (when it succeeds) returns a response with `success = true` and
`result` exactly the handler's value. -/
theorem handleCall_registered_success (mgr : Manager) (call : Call)
    (interfaceMap : SMap Handler) (handler : Handler) (v : Value)
    (hIf : smapGet mgr.interfaces call.interfaceName = some interfaceMap)
    (hMe : smapGet interfaceMap call.methodName = some handler)
    (hOk : handler call.args = Except.ok v) :
    handleCall mgr call =
      { type := "JS_INTERFACE_RESPONSE", callId := call.callId, success := true,
        result := some v, error := none }
    ∧ handleCallInvocations mgr call =
        [(call.interfaceName, call.methodName, call.args)] := by
  simp only [handleCall, handleCallInvocations, handleCallWithTrace, hIf, hMe, hOk]
  refine ⟨?_, ?_⟩ <;> trivial

/-- Witness for C1 at a concrete manager and envelope. -/
theorem handleCall_registered_success_witness :
    handleCall mgrW
        { interfaceName := "Android", methodName := "getToken",
          args := [Value.num 1, Value.num 2], callId := "c1" } =
      { type := "JS_INTERFACE_RESPONSE", callId := "c1", success := true,
        result := some (Value.str "secure-token-12345"), error := none }
    ∧ handleCallInvocations mgrW
        { interfaceName := "Android", methodName := "getToken",
          args := [Value.num 1, Value.num 2], callId := "c1" } =
        [("Android", "getToken", [Value.num 1, Value.num 2])] :=
  handleCall_registered_success mgrW
    { interfaceName := "Android", methodName := "getToken",
      args := [Value.num 1, Value.num 2], callId := "c1" }
    _ getTokenHandler (Value.str "secure-token-12345") rfl rfl rfl

/-- C2: a call envelope whose `interfaceName` is not in the registry gets a
failure response with exactly the message `Interface '<name>' not found`,
and no handler is invoked. -/
theorem handleCall_interface_not_found (mgr : Manager) (call : Call)
    (h : mgr.hasInterface call.interfaceName = false) :
    handleCall mgr call =
      { type := "JS_INTERFACE_RESPONSE", callId := call.callId, success := false,
        result := none,
        error := some ("Interface \x27" ++ call.interfaceName ++ "\x27 not found") }
    ∧ handleCallInvocations mgr call = [] := by
  have h0 : smapGet mgr.interfaces call.interfaceName = none := by
    unfold Manager.hasInterface at h
    cases hh : smapGet mgr.interfaces call.interfaceName with
    | none => rfl
    | some v => rw [hh] at h; simp at h
  simp only [handleCall, handleCallInvocations, handleCallWithTrace, h0]
  refine ⟨?_, ?_⟩ <;> trivial

/-- Witness for C2: a name colliding with a JS built-in global. -/
theorem handleCall_interface_not_found_witness :
    handleCall mgrW
        { interfaceName := "JSON", methodName := "parse", args := [], callId := "c2" } =
      { type := "JS_INTERFACE_RESPONSE", callId := "c2", success := false,
        result := none, error := some "Interface \x27JSON\x27 not found" }
    ∧ handleCallInvocations mgrW
        { interfaceName := "JSON", methodName := "parse", args := [], callId := "c2" } = [] :=
  handleCall_interface_not_found mgrW
    { interfaceName := "JSON", methodName := "parse", args := [], callId := "c2" } rfl

/-- C3: a call envelope whose `interfaceName` is registered but whose
`methodName` is not, gets a failure response with exactly the message
`Method '<name>' not found on interface '<name>'`, and no handler is
invoked. -/
theorem handleCall_method_not_found (mgr : Manager) (call : Call)
    (hIf : mgr.hasInterface call.interfaceName = true)
    (hMe : mgr.hasMethod call.interfaceName call.methodName = false) :
    handleCall mgr call =
      { type := "JS_INTERFACE_RESPONSE", callId := call.callId, success := false,
        result := none,
        error := some ("Method \x27" ++ call.methodName ++ "\x27 not found on interface \x27"
          ++ call.interfaceName ++ "\x27") }
    ∧ handleCallInvocations mgr call = [] := by
  unfold Manager.hasInterface at hIf
  cases hh : smapGet mgr.interfaces call.interfaceName with
  | none => rw [hh] at hIf; simp at hIf
  | some interfaceMap =>
      have h0 : smapGet interfaceMap call.methodName = none := by
        unfold Manager.hasMethod at hMe
        simp only [hh] at hMe
        cases hm : smapGet interfaceMap call.methodName with
        | none => rfl
        | some v => rw [hm] at hMe; simp at hMe
      simp only [handleCall, handleCallInvocations, handleCallWithTrace, hh, h0]
      refine ⟨?_, ?_⟩ <;> trivial

/-- Witness for C3 at a concrete manager and envelope. -/
theorem handleCall_method_not_found_witness :
    handleCall mgrW
        { interfaceName := "Android", methodName := "missing", args := [], callId := "c3" } =
      { type := "JS_INTERFACE_RESPONSE", callId := "c3", success := false,
        result := none,
        error := some "Method \x27missing\x27 not found on interface \x27Android\x27" }
    ∧ handleCallInvocations mgrW
        { interfaceName := "Android", methodName := "missing", args := [], callId := "c3" } = [] :=
  handleCall_method_not_found mgrW
    { interfaceName := "Android", methodName := "missing", args := [], callId := "c3" } rfl rfl

/-- C4: `handleCall` never raises (it is a total function into responses):
when the invoked handler throws or rejects, the response has
`success = false` and its `error` field is the failure's message when the
failure is an `Error`, and otherwise the string form of the failure value —
and whenever `success = false` the `error` field holds a string. -/
theorem handleCall_handler_failure (mgr : Manager) (call : Call) :
    (∀ (interfaceMap : SMap Handler) (handler : Handler) (e : Failure),
        smapGet mgr.interfaces call.interfaceName = some interfaceMap →
        smapGet interfaceMap call.methodName = some handler →
        handler call.args = Except.error e →
        handleCall mgr call =
          { type := "JS_INTERFACE_RESPONSE", callId := call.callId, success := false,
            result := none, error := some (errorMessageOf e) })
    ∧ ((handleCall mgr call).success = false →
        ∃ s, (handleCall mgr call).error = some s) := by
  constructor
  · intro interfaceMap handler e hIf hMe hErr
    simp only [handleCall, handleCallWithTrace, hIf, hMe, hErr]
  · cases h1 : smapGet mgr.interfaces call.interfaceName with
    | none =>
        simp only [handleCall, handleCallWithTrace, h1]
        exact fun _ => ⟨_, rfl⟩
    | some interfaceMap =>
        cases h2 : smapGet interfaceMap call.methodName with
        | none =>
            simp only [handleCall, handleCallWithTrace, h1, h2]
            exact fun _ => ⟨_, rfl⟩
        | some handler =>
            cases h3 : handler call.args with
            | ok v =>
                simp only [handleCall, handleCallWithTrace, h1, h2, h3]
                intro hs
                simp at hs
            | error e =>
                simp only [handleCall, handleCallWithTrace, h1, h2, h3]
                exact fun _ => ⟨_, rfl⟩

/-- Witness for C4: a handler throwing an `Error` and one throwing a
non-`Error` value. -/
theorem handleCall_handler_failure_witness :
    handleCall mgrW
        { interfaceName := "Android", methodName := "boom", args := [], callId := "c4" } =
      { type := "JS_INTERFACE_RESPONSE", callId := "c4", success := false,
        result := none, error := some "kaboom" }
    ∧ (∃ s, (handleCall mgrW
        { interfaceName := "Android", methodName := "boom", args := [], callId := "c4" }).error
          = some s) :=
  ⟨(handleCall_handler_failure mgrW
      { interfaceName := "Android", methodName := "boom", args := [], callId := "c4" }).1
      _ boomHandler (Failure.errorInstance "kaboom") rfl rfl rfl,
   (handleCall_handler_failure mgrW
      { interfaceName := "Android", methodName := "boom", args := [], callId := "c4" }).2
      (by rfl)⟩

/-- C10: every response `handleCall` returns has
`type = 'JS_INTERFACE_RESPONSE'`, the input envelope's `callId`, and
mutually exclusive optional fields: on success a `result` and no `error`,
on failure an `error` and no `result`. -/
theorem handleCall_response_wellformed (mgr : Manager) (call : Call) :
    (handleCall mgr call).type = "JS_INTERFACE_RESPONSE"
    ∧ (handleCall mgr call).callId = call.callId
    ∧ (if (handleCall mgr call).success
       then (handleCall mgr call).result.isSome ∧ (handleCall mgr call).error = none
       else (handleCall mgr call).error.isSome ∧ (handleCall mgr call).result = none) := by
  cases h1 : smapGet mgr.interfaces call.interfaceName with
  | none => simp [handleCall, handleCallWithTrace, h1]
  | some interfaceMap =>
      cases h2 : smapGet interfaceMap call.methodName with
      | none => simp [handleCall, handleCallWithTrace, h1, h2]
      | some handler =>
          cases h3 : handler call.args with
          | ok v => simp [handleCall, handleCallWithTrace, h1, h2, h3]
          | error e => simp [handleCall, handleCallWithTrace, h1, h2, h3]

/-- A key that `smapGet` finds is among the map's keys. -/
theorem mem_keys_of_smapGet {β : Type} {m : SMap β} {k : String} {v : β}
    (h : smapGet m k = some v) : k ∈ m.map Prod.fst := by
  induction m with
  | nil => simp [smapGet] at h
  | cons p rest ih =>
      obtain ⟨a, b⟩ := p
      by_cases hak : a = k
      · simp [hak]
      · have h2 : (a == k) = false := by simp [hak]
        simp [smapGet, h2] at h
        simp only [List.map_cons]
        exact List.mem_cons_of_mem _ (ih h)

/-- When `lookupLast` finds nothing, no element has the searched key. -/
theorem lookupLast_none_not_mem {α : Type} (key : α → String) (k : String)
    (l : List α) (h : lookupLast key k l = none) : ∀ x ∈ l, key x ≠ k := by
  induction l with
  | nil => intro x hx; cases hx
  | cons y rest ih =>
      simp only [lookupLast] at h
      cases hr : lookupLast key k rest with
      | some z => rw [hr] at h; cases h
      | none =>
          rw [hr] at h
          intro x hx
          rcases List.mem_cons.mp hx with hxy | hxr
          · subst hxy
            by_cases hk : key x = k
            · simp [hk] at h
            · exact hk
          · exact ih hr x hxr

/-- On a list of strings keyed by themselves, `lookupLast` finds every
member (and returns it). -/
theorem lookupLast_self_of_mem (l : List String) (i : String) (h : i ∈ l) :
    lookupLast (fun n => n) i l = some i := by
  induction l with
  | nil => cases h
  | cons x rest ih =>
      simp only [lookupLast]
      cases hr : lookupLast (fun n => n) i rest with
      | some y =>
          have hy : y = i := lookupLast_key (fun n => n) i rest y hr
          rw [hy]
      | none =>
          rcases List.mem_cons.mp h with hxy | hxr
          · subst hxy; simp
          · exact absurd rfl (lookupLast_none_not_mem (fun n => n) i rest hr i hxr)

/-- C5: `configure` replaces the registry wholesale: the result is
independent of the prior state, lookups afterwards are decided by the last
matching entry of the configuration (later entries win, for interface
names and for method names alike), and the registry never holds two
entries under the same interface name nor a method map with two entries
under the same method name. -/
theorem configure_replaces (mgr mgr2 : Manager) (cfg : Config) :
    mgr.configure cfg = mgr2.configure cfg
    ∧ (∀ i, smapGet (mgr.configure cfg).interfaces i =
        (lookupLast (fun io => io.name) i cfg.interfaces).map
          (fun io => buildMethodMap io.methods))
    ∧ (∀ i, (mgr.configure cfg).hasInterface i =
        (lookupLast (fun io => io.name) i cfg.interfaces).isSome)
    ∧ (∀ i m, (mgr.configure cfg).hasMethod i m =
        ((lookupLast (fun io => io.name) i cfg.interfaces).bind
          (fun io => lookupLast (fun meth => meth.name) m io.methods)).isSome)
    ∧ (((mgr.configure cfg).interfaces.map Prod.fst).Nodup)
    ∧ (∀ i, ((((smapGet (mgr.configure cfg).interfaces i).getD []).map Prod.fst)).Nodup) := by
  have hGet : ∀ i, smapGet (mgr.configure cfg).interfaces i =
      (lookupLast (fun io => io.name) i cfg.interfaces).map
        (fun io => buildMethodMap io.methods) := by
    intro i
    exact smapGet_foldl_set_nil (fun io => io.name)
      (fun io => buildMethodMap io.methods) cfg.interfaces i
  have hMM : ∀ (methods : List MethodSpec) (m : String),
      smapGet (buildMethodMap methods) m =
        (lookupLast (fun meth => meth.name) m methods).map (fun meth => meth.handler) := by
    intro methods m
    unfold buildMethodMap
    exact smapGet_foldl_set_nil (fun meth => meth.name)
      (fun meth => meth.handler) methods m
  refine ⟨rfl, hGet, ?_, ?_, ?_, ?_⟩
  · intro i
    unfold Manager.hasInterface
    rw [hGet i]
    cases lookupLast (fun io => io.name) i cfg.interfaces <;> simp
  · intro i m
    unfold Manager.hasMethod
    rw [hGet i]
    cases hL : lookupLast (fun io => io.name) i cfg.interfaces with
    | none => simp
    | some io =>
        simp only [Option.map_some', Option.some_bind]
        rw [hMM io.methods m]
        cases lookupLast (fun meth => meth.name) m io.methods <;> simp
  · exact nodup_keys_foldl_set (fun io => io.name)
      (fun io => buildMethodMap io.methods) cfg.interfaces [] (by simp)
  · intro i
    rw [hGet i]
    cases hL : lookupLast (fun io => io.name) i cfg.interfaces with
    | none => simp
    | some io =>
        simp only [Option.map_some', Option.getD_some]
        exact nodup_keys_foldl_set (fun meth => meth.name)
          (fun meth => meth.handler) io.methods [] (by simp)

/-- Fixture: an embedded environment with a working transport and nothing
pending. -/
def env0 : EnvState :=
  { globals := [], callbacks := [], postMessageAvailable := true, sent := [] }

set_option maxRecDepth 8192 in
/-- C6: `generateInjectionScript` returns the empty string exactly when the
registry has no interfaces; on a non-empty registry the (non-empty) script,
once executed, defines for every registered interface name a window-level
object whose properties are exactly the configured method names, each
holding the stub for that (interface, method) pair. -/
theorem generateInjectionScript_spec (mgr : Manager) (env : EnvState) :
    (generateInjectionScript mgr = "" ↔ mgr.interfaces = [])
    ∧ (∀ i methodMap, smapGet mgr.interfaces i = some methodMap →
        smapGet (execBootstrap mgr env).globals i =
            some (interfaceObjectOf i methodMap)
        ∧ (interfaceObjectOf i methodMap).map Prod.fst = methodMap.map Prod.fst
        ∧ ∀ q ∈ interfaceObjectOf i methodMap, q.2 = (i, q.1)) := by
  constructor
  · constructor
    · intro hEmpty
      by_contra hne
      have hlen : ¬ (mgr.interfaces.map Prod.fst).length = 0 := by
        simp only [List.length_map]
        exact fun h => hne (List.eq_nil_of_length_eq_zero h)
      simp only [generateInjectionScript, if_neg hlen] at hEmpty
      have hL := congrArg String.length hEmpty
      rw [String.length_append, String.length_append] at hL
      have hp : 0 < scriptPrologue.length := by decide
      have hz : ("" : String).length = 0 := rfl
      omega
    · intro h
      simp [generateInjectionScript, h]
  · intro i methodMap hmm
    have hiM : i ∈ mgr.interfaces.map Prod.fst := mem_keys_of_smapGet hmm
    refine ⟨?_, ?_, ?_⟩
    · have hfold := smapGet_foldl_set (fun n => n)
        (fun n => interfaceObjectOf n ((smapGet mgr.interfaces n).getD []))
        (mgr.interfaces.map Prod.fst) env.globals i
      rw [lookupLast_self_of_mem _ _ hiM] at hfold
      have h2 : smapGet (execBootstrap mgr env).globals i =
          some (interfaceObjectOf i ((smapGet mgr.interfaces i).getD [])) := hfold
      rw [hmm] at h2
      exact h2
    · simp [interfaceObjectOf]
    · intro q hq
      simp only [interfaceObjectOf, List.mem_map] at hq
      obtain ⟨p, _, hpq⟩ := hq
      rw [← hpq]

/-- Witness for C6 at a concrete manager and environment. -/
theorem generateInjectionScript_spec_witness :
    (generateInjectionScript mgrW = "" ↔ mgrW.interfaces = [])
    ∧ smapGet (execBootstrap mgrW env0).globals "Android" =
        some [("getToken", ("Android", "getToken")), ("boom", ("Android", "boom"))] :=
  ⟨(generateInjectionScript_spec mgrW env0).1,
   ((generateInjectionScript_spec mgrW env0).2 "Android" _ rfl).1⟩

/-- C7: an inbound message whose payload fails to parse, or parses to a
value that does not match the call-envelope shape, is routed unchanged to
the host's generic message handler and never to the dispatcher (and the
classification is total, so it never raises); a payload matching the shape
while an interface manager is configured is routed to the dispatcher,
which is a different route than the generic one. -/
theorem classifyInbound_spec (raw : String) (parsed : Option JsonVal) (cfg : Bool) :
    (parsed = none → classifyInbound raw parsed cfg = MessageRoute.toGeneric raw)
    ∧ (∀ d, parsed = some d → isInterfaceCall d = false →
        classifyInbound raw parsed cfg = MessageRoute.toGeneric raw)
    ∧ (∀ d, parsed = some d → isInterfaceCall d = true → cfg = true →
        classifyInbound raw parsed cfg = MessageRoute.toDispatcher)
    ∧ MessageRoute.toDispatcher ≠ MessageRoute.toGeneric raw := by
  refine ⟨?_, ?_, ?_, by simp⟩
  · intro h; rw [h]; rfl
  · intro d hd hfalse
    rw [hd]
    simp [classifyInbound, hfalse]
  · intro d hd htrue hcfg
    rw [hd]
    simp [classifyInbound, htrue, hcfg]

/-- Witness for C7 at concrete payloads: a parse failure, a matching
envelope with a configured manager, and a parsed non-envelope value. -/
theorem classifyInbound_spec_witness :
    classifyInbound "payload" none false = MessageRoute.toGeneric "payload"
    ∧ classifyInbound "payload"
        (some (JsonVal.obj [("type", JsonVal.str "JS_INTERFACE_CALL")])) true =
        MessageRoute.toDispatcher
    ∧ classifyInbound "payload" (some (JsonVal.str "hello")) true =
        MessageRoute.toGeneric "payload" :=
  ⟨(classifyInbound_spec "payload" none false).1 rfl,
   (classifyInbound_spec "payload"
      (some (JsonVal.obj [("type", JsonVal.str "JS_INTERFACE_CALL")])) true).2.2.1
      _ rfl rfl rfl,
   (classifyInbound_spec "payload" (some (JsonVal.str "hello")) true).2.1 _ rfl rfl⟩

/-- Fixture: an embedded environment whose outward transport is missing. -/
def envNoTransport : EnvState :=
  { globals := [], callbacks := [], postMessageAvailable := false, sent := [] }

/-- Counterexample to C8 as stated: with the transport unavailable the stub
does reject immediately and sends nothing, but the pending-call-table
entry it registered for the call is left in the table (it is neither
skipped nor removed). -/
theorem stubCall_counterexample :
    (stubCall "Android" "getToken" [] "c1" envNoTransport).2 =
      [SettleEvent.rejected "c1" "ReactNativeWebView not available"]
    ∧ (stubCall "Android" "getToken" [] "c1" envNoTransport).1.sent = []
    ∧ smapGet (stubCall "Android" "getToken" [] "c1" envNoTransport).1.callbacks "c1" =
        some { promiseId := "c1" }
    ∧ smapGet (stubCall "Android" "getToken" [] "c1" envNoTransport).1.callbacks "c1" ≠
        none := by
  refine ⟨rfl, rfl, rfl, by decide⟩

/-- C8 amended: when a stub is called while
`window.ReactNativeWebView.postMessage` is unavailable, the returned
promise immediately rejects with the transport-unavailable error and no
message is sent, but the pending-call-table entry registered for the call
remains in the table. -/
theorem stubCall_transport_unavailable (interfaceName methodName : String)
    (args : List Value) (callId : String) (env : EnvState)
    (h : env.postMessageAvailable = false) :
    stubCall interfaceName methodName args callId env =
      ({ env with callbacks := smapSet env.callbacks callId { promiseId := callId } },
       [SettleEvent.rejected callId "ReactNativeWebView not available"]) := by
  simp [stubCall, h]

/-- Witness for C8 (amended) at a concrete environment. -/
theorem stubCall_transport_unavailable_witness :
    stubCall "Android" "getToken" [] "c1" envNoTransport =
      ({ envNoTransport with
          callbacks := smapSet envNoTransport.callbacks "c1" { promiseId := "c1" } },
       [SettleEvent.rejected "c1" "ReactNativeWebView not available"]) :=
  stubCall_transport_unavailable "Android" "getToken" [] "c1" envNoTransport rfl

/-- Fixture: an environment with one pending entry under callId `c1`. -/
def envPending : EnvState :=
  { globals := [], callbacks := [("c1", { promiseId := "c1" })],
    postMessageAvailable := true, sent := [] }

/-- Fixture: a failure response whose `error` field is present but empty. -/
def respEmptyError : Response :=
  { type := "JS_INTERFACE_RESPONSE", callId := "c1", success := false,
    result := none, error := some "" }

/-- Fixture: a response whose callId has no own entry and is not an
`Object.prototype` member name. -/
def respUnknown : Response :=
  { type := "JS_INTERFACE_RESPONSE", callId := "c2", success := true,
    result := none, error := none }

/-- Fixture: a response whose callId is the inherited name `constructor`. -/
def respConstructor : Response :=
  { type := "JS_INTERFACE_RESPONSE", callId := "constructor", success := true,
    result := none, error := none }

/-- Counterexample to C9 as stated, on two points. (1) On a failure
response whose `error` field is present but the empty string, the handler
rejects with the fallback message `Unknown error`, not with an error built
from the field's value (JS `response.error || 'Unknown error'` treats the
empty string like an absent field). (2) On a response whose callId
(`constructor`) has no pending entry, the handler does not leave things
unthrown: the plain-object read finds the truthy inherited
`Object.prototype.constructor`, `if (callback)` passes, and the
`callback.resolve(...)` call throws a `TypeError`. -/
theorem handleResponse_counterexample :
    respEmptyError.error = some ""
    ∧ (handleJSInterfaceResponse respEmptyError envPending).2 =
        RunOutcome.normal [SettleEvent.rejected "c1" "Unknown error"]
    ∧ "Unknown error" ≠ ""
    ∧ smapGet envPending.callbacks "constructor" = none
    ∧ (handleJSInterfaceResponse respConstructor envPending).2 = RunOutcome.typeError := by
  refine ⟨rfl, rfl, by decide, rfl, rfl⟩

/-- A run of the handler on a state whose table has no own entry for the
response's callId settles nothing (it either does nothing or throws). -/
theorem settledEvents_of_absent (response : Response) (env : EnvState)
    (h : smapGet env.callbacks response.callId = none) :
    settledEvents (handleJSInterfaceResponse response env).2 = [] := by
  simp only [handleJSInterfaceResponse, tableRead, h]
  cases hp : objectPrototypeKeys.contains response.callId <;> simp [hp, settledEvents]

/-- C9 amended: the generated response handler settles each pending entry
at most once. On a response whose `callId` has a pending entry, the entry
is removed and settled: fulfilled with `result` when `success` is true,
rejected — when `success` is false — with an error whose message is the
`error` field when that is present and non-empty, and `Unknown error` when
the field is absent or the empty string. On a response whose `callId` has
no pending entry, the table is unchanged and nothing is settled, and
nothing is thrown either — unless the callId is one of the names the
plain-object table inherits from `Object.prototype`, in which case the
handler throws a `TypeError` (still settling nothing and leaving the table
unchanged). Reprocessing the same response a second time settles nothing. -/
theorem handleResponse_spec (response : Response) (env : EnvState) :
    (∀ cb, smapGet env.callbacks response.callId = some cb →
        handleJSInterfaceResponse response env =
          ({ env with callbacks := smapRemove env.callbacks response.callId },
           RunOutcome.normal
             (if response.success then [SettleEvent.fulfilled cb.promiseId response.result]
              else [SettleEvent.rejected cb.promiseId (jsOrElse response.error "Unknown error")])))
    ∧ (smapGet env.callbacks response.callId = none →
        objectPrototypeKeys.contains response.callId = false →
        handleJSInterfaceResponse response env = (env, RunOutcome.normal []))
    ∧ (smapGet env.callbacks response.callId = none →
        objectPrototypeKeys.contains response.callId = true →
        handleJSInterfaceResponse response env = (env, RunOutcome.typeError))
    ∧ settledEvents (handleJSInterfaceResponse response
        (handleJSInterfaceResponse response env).1).2 = [] := by
  refine ⟨?_, ?_, ?_, ?_⟩
  · intro cb hcb
    simp only [handleJSInterfaceResponse, tableRead, hcb]
    cases response.success <;> simp
  · intro hnone hni
    simp only [handleJSInterfaceResponse, tableRead, hnone, hni]
    rfl
  · intro hnone hyes
    simp only [handleJSInterfaceResponse, tableRead, hnone, hyes]
    rfl
  · cases hc : smapGet env.callbacks response.callId with
    | some cb =>
        have h1 : (handleJSInterfaceResponse response env).1 =
            { env with callbacks := smapRemove env.callbacks response.callId } := by
          simp only [handleJSInterfaceResponse, tableRead, hc]
          cases response.success <;> rfl
        rw [h1]
        exact settledEvents_of_absent response _
          (smapGet_smapRemove_self env.callbacks response.callId)
    | none =>
        have h1 : (handleJSInterfaceResponse response env).1 = env := by
          simp only [handleJSInterfaceResponse, tableRead, hc]
          cases objectPrototypeKeys.contains response.callId <;> rfl
        rw [h1]
        exact settledEvents_of_absent response env hc

/-- Witness for C9 (amended) at concrete inputs: settles a pending entry,
does nothing for an unknown non-prototype callId, throws for an inherited
one, and a second processing of the same response settles nothing. -/
theorem handleResponse_spec_witness :
    handleJSInterfaceResponse respEmptyError envPending =
      ({ envPending with callbacks := smapRemove envPending.callbacks "c1" },
       RunOutcome.normal [SettleEvent.rejected "c1" "Unknown error"])
    ∧ handleJSInterfaceResponse respUnknown envPending =
        (envPending, RunOutcome.normal [])
    ∧ handleJSInterfaceResponse respConstructor envPending =
        (envPending, RunOutcome.typeError)
    ∧ settledEvents (handleJSInterfaceResponse respEmptyError
        (handleJSInterfaceResponse respEmptyError envPending).1).2 = [] :=
  ⟨(handleResponse_spec respEmptyError envPending).1 { promiseId := "c1" } rfl,
   (handleResponse_spec respUnknown envPending).2.1 rfl rfl,
   (handleResponse_spec respConstructor envPending).2.2.1 rfl rfl,
   (handleResponse_spec respEmptyError envPending).2.2.2⟩
